import Mathlib

/-!
Verification development for the Streetwise storage and aggregation engine
(Express/TypeScript backend with an in-memory store, a relational store and
a monetary aggregation route).

Shallow embedding conventions:

* JavaScript values that can be `undefined`, `null` or present are modelled
  by `JsOpt`; TypeScript `T | null` values that can never be `undefined`
  (database rows, fields the code defaults with `?? null`) are `Option`.
* JS `Date` values are their millisecond time values (`Int`).
* `decimal(10,2)` amounts are the exact rational value denoted by the stored
  decimal string; `parseFloat` and JS `+` on numbers are modelled by rounding
  to the nearest IEEE-754 binary64 value (`roundB64`), see below.
* The JS `Map` backing `MemStorage` is an association list in insertion
  order: `Map.set` replaces in place when the key exists, else appends.
-/

/-- `undefined` / `null` / present value, as in JavaScript. -/
inductive JsOpt (α : Type) where
  | undef : JsOpt α
  | null : JsOpt α
  | val : α → JsOpt α
deriving DecidableEq, Repr

/-- JS nullish coalescing `x ?? d`: both `undefined` and `null` fall through. -/
def jsNullish {α : Type} (d : α) : JsOpt α → α
  | .val a => a
  | _ => d

/-- The TS parameter type `string | null` injected into a JS field value
(`null` is `JsOpt.null`, a string is `JsOpt.val`). -/
def jsOfOption : Option String → JsOpt String
  | none => .null
  | some s => .val s

/-! ## IEEE-754 binary64 model

JS numbers are binary64 doubles.  `roundB64` maps an exact rational to the
value of the nearest double (round to nearest, ties to even), for arguments
in the normal finite range; overflow to infinity and subnormal underflow are
outside the range of any value handled by this program and are not modelled.
`Nat.log2` is recursion on a fuel argument so that the kernel can evaluate it. -/

def log2Fuel : Nat → Nat → Nat
  | 0, _ => 0
  | f + 1, n => if n ≥ 2 then log2Fuel f (n / 2) + 1 else 0

def natLog2 (n : Nat) : Nat := log2Fuel n n

/-- `⌊log2 q⌋` for a positive rational `q`. -/
def qfloorLog2 (q : ℚ) : Int :=
  let e0 : Int := (natLog2 q.num.natAbs : Int) - (natLog2 q.den : Int)
  if q < 2 ^ e0 then e0 - 1 else e0

/-- Round a positive rational to the nearest binary64 value (ties to even). -/
def roundPosB64 (q : ℚ) : ℚ :=
  let e := qfloorLog2 q
  let scale : ℚ := 2 ^ ((52 : Int) - e)
  let m := q * scale
  let n : Int := ⌊m⌋
  let frac := m - (n : ℚ)
  let n' : Int :=
    if frac < 1 / 2 then n
    else if 1 / 2 < frac then n + 1
    else if n % 2 = 0 then n else n + 1
  (n' : ℚ) / scale

/-- Round a rational to the nearest binary64 value (normal range). -/
def roundB64 (q : ℚ) : ℚ :=
  if q = 0 then 0 else if 0 < q then roundPosB64 q else -(roundPosB64 (-q))

/-! ## Entity model (shared/schema.ts) -/

/-- A `sessions` row / `Session` record (shared/schema.ts lines 56-66).
`userId`, `orgId`, `workTypeId` are nullable and — in `MemStorage`, which
spreads the insert payload — can also be absent (`undefined`). -/
structure Session where
  id : String
  userId : JsOpt String := .undef
  orgId : JsOpt String := .undef
  workTypeId : JsOpt String := .undef
  location : String
  startTime : Int
  endTime : Option Int := none
  isTest : Bool := false
  isActive : Bool := true
deriving DecidableEq, Repr

/-- A `transactions` row / `Transaction` record (shared/schema.ts lines 69-81).
`amount` is the exact rational value of the `decimal(10,2)` string.
`MemStorage.createTransaction` defaults `userId`/`orgId`/`productId` with
`?? null` and snapshot reload yields JSON (no `undefined`), so plain
`Option` is faithful for stored transactions. -/
structure Transaction where
  id : String
  sessionId : Option String := none
  userId : Option String := none
  orgId : Option String := none
  workTypeId : Option String := none
  timestamp : Int
  amount : ℚ
  type : String := "donation"
  note : Option String := none
  productId : Option String := none
  pennies : Int := 0
deriving DecidableEq, Repr

/-- The `insertSessionSchema` payload (shared/schema.ts lines 105-110): the
client-suppliable Session fields; `id`, `startTime`, `endTime`, `isActive`
are omitted by the schema. -/
structure InsertSession where
  userId : JsOpt String := .undef
  orgId : JsOpt String := .undef
  workTypeId : JsOpt String := .undef
  location : String
  isTest : JsOpt Bool := .undef
deriving DecidableEq, Repr

/-- A TS `Partial<Session>` update map: each field is either absent
(not a key of the object) or supplied. -/
structure SessionPatch where
  id : Option String := none
  userId : Option (JsOpt String) := none
  orgId : Option (JsOpt String) := none
  workTypeId : Option (JsOpt String) := none
  location : Option String := none
  startTime : Option Int := none
  endTime : Option (Option Int) := none
  isTest : Option Bool := none
  isActive : Option Bool := none
deriving DecidableEq, Repr

/-- JS object spread `{ ...session, ...updates }`: every key present in
`updates` overrides, every other key keeps the stored value. -/
def mergeSession (s : Session) (p : SessionPatch) : Session :=
  { id := p.id.getD s.id
    userId := p.userId.getD s.userId
    orgId := p.orgId.getD s.orgId
    workTypeId := p.workTypeId.getD s.workTypeId
    location := p.location.getD s.location
    startTime := p.startTime.getD s.startTime
    endTime := p.endTime.getD s.endTime
    isTest := p.isTest.getD s.isTest
    isActive := p.isActive.getD s.isActive }

/-! ## JS `Map` as an insertion-ordered association list -/

/-- `Map.get`. -/
def lookupKey {α : Type} : List (String × α) → String → Option α
  | [], _ => none
  | (k, v) :: rest, k' => if k = k' then some v else lookupKey rest k'

/-- `Map.set`: replace in place when the key exists, else append. -/
def mapSet {α : Type} (k : String) (v : α) : List (String × α) → List (String × α)
  | [] => [(k, v)]
  | (k', v') :: rest => if k' = k then (k, v) :: rest else (k', v') :: mapSet k v rest

/-! ## MemStorage (server/storage.ts and its multi-tenant revision) -/

/-- `MemStorage.createSession` (server/storage.ts lines 106-119; identical in
the multi-tenant revision): spread the insert payload, generate an id, stamp
`startTime`, and default `endTime: null`, `isActive: true`,
`isTest: insertSession.isTest ?? false`.  The generated UUID and the clock
reading are passed in as `newId` and `now`. -/
def MemStorage.createSession (sessions : List (String × Session)) (ins : InsertSession)
    (newId : String) (now : Int) : Session × List (String × Session) :=
  let s : Session :=
    { id := newId
      userId := ins.userId
      orgId := ins.orgId
      workTypeId := ins.workTypeId
      location := ins.location
      startTime := now
      endTime := none
      isActive := true
      isTest := jsNullish false ins.isTest }
  (s, mapSet newId s sessions)

/-- `MemStorage.updateSession` (server/storage.ts lines 121-129): look the id
up, return `undefined` when absent, else store and return
`{ ...session, ...updates }` under the same key. -/
def MemStorage.updateSession (sessions : List (String × Session)) (id : String)
    (p : SessionPatch) : Option Session × List (String × Session) :=
  match lookupKey sessions id with
  | none => (none, sessions)
  | some s =>
    let s' := mergeSession s p
    (some s', mapSet id s' sessions)

/-- `MemStorage.getActiveSession` (server/storage.ts lines 102-104, the
version the routes call, which takes no filter arguments):
`Array.from(this.sessions.values()).find((s) => s.isActive)`. -/
def MemStorage.getActiveSessionNoFilter (sessions : List Session) : Option Session :=
  sessions.find? (fun s => s.isActive)

/-- `MemStorage.getActiveSession` of the multi-tenant revision
(src/unnamed/part_000 lines 402-416): filter the active sessions, then filter
`s.userId === userId` when `userId` is provided and `s.orgId === orgId` when
`orgId` is provided, and return `sessions[0]`. -/
def MemStorage.getActiveSession (sessions : List Session) (userId : Option String)
    (orgId : Option (Option String)) : Option Session :=
  let l := sessions.filter (fun s => s.isActive)
  let l := match userId with
    | none => l
    | some u => l.filter (fun s => decide (s.userId = JsOpt.val u))
  let l := match orgId with
    | none => l
    | some o => l.filter (fun s => decide (s.orgId = jsOfOption o))
  l.head?

/-- `MemStorage.getAllSessions` (src/unnamed/part_000 lines 447-456): all
session values; if `orgId` is provided (possibly `null`), keep exactly those
with `s.orgId === orgId`. -/
def MemStorage.getAllSessions (sessions : List Session)
    (orgId : Option (Option String)) : List Session :=
  match orgId with
  | none => sessions
  | some o => sessions.filter (fun s => decide (s.orgId = jsOfOption o))

/-- `MemStorage.getAllTransactions` (src/unnamed/part_000 lines 481-490). -/
def MemStorage.getAllTransactions (txs : List Transaction)
    (orgId : Option (Option String)) : List Transaction :=
  match orgId with
  | none => txs
  | some o => txs.filter (fun t => decide (t.orgId = o))

/-! ## Sorting (the relational backend's `ORDER BY … DESC`)

Insertion sort by an integer key, descending.  SQL leaves the relative order
of equal keys unspecified; this model fixes one choice (stable). -/

def insertDescBy {α : Type} (key : α → Int) (a : α) : List α → List α
  | [] => [a]
  | b :: bs => if key b ≤ key a then a :: b :: bs else b :: insertDescBy key a bs

def sortDescBy {α : Type} (key : α → Int) : List α → List α
  | [] => []
  | a :: as => insertDescBy key a (sortDescBy key as)

def insertAscBy {α : Type} (key : α → Int) (a : α) : List α → List α
  | [] => [a]
  | b :: bs => if key a ≤ key b then a :: b :: bs else b :: insertAscBy key a bs

def sortAscBy {α : Type} (key : α → Int) : List α → List α
  | [] => []
  | a :: as => insertAscBy key a (sortAscBy key as)

/-! ## DbStorage (server/db-storage.ts) -/

/-- The WHERE conditions of `DbStorage.getActiveSession`
(server/db-storage.ts lines 107-121): `isActive = true`, plus
`eq(userId, u)` when `userId` is provided, plus `isNull(orgId)` or
`eq(orgId, o)` when `orgId` is provided. -/
def DbStorage.sessionMatch (userId : Option String) (orgId : Option (Option String))
    (s : Session) : Bool :=
  s.isActive &&
    (match userId with
      | none => true
      | some u => decide (s.userId = JsOpt.val u)) &&
    (match orgId with
      | none => true
      | some none => decide (s.orgId = JsOpt.null)
      | some (some o) => decide (s.orgId = JsOpt.val o))

/-- `DbStorage.getActiveSession` (server/db-storage.ts lines 107-130):
filter by the conditions, `ORDER BY startTime DESC LIMIT 1`. -/
def DbStorage.getActiveSession (rows : List Session) (userId : Option String)
    (orgId : Option (Option String)) : Option Session :=
  (sortDescBy (fun s => s.startTime) (rows.filter (DbStorage.sessionMatch userId orgId))).head?

/-- `DbStorage.getAllSessions` (server/db-storage.ts lines 151-172):
all rows / `isNull(orgId)` / `eq(orgId, o)`, ordered by `startTime DESC`. -/
def DbStorage.getAllSessions (rows : List Session)
    (orgId : Option (Option String)) : List Session :=
  sortDescBy (fun s => s.startTime)
    (match orgId with
      | none => rows
      | some none => rows.filter (fun s => decide (s.orgId = JsOpt.null))
      | some (some o) => rows.filter (fun s => decide (s.orgId = JsOpt.val o)))

/-- `DbStorage.getAllTransactions` (server/db-storage.ts lines 188-209):
all rows / `isNull(orgId)` / `eq(orgId, o)`, ordered by `timestamp DESC`. -/
def DbStorage.getAllTransactions (rows : List Transaction)
    (orgId : Option (Option String)) : List Transaction :=
  sortDescBy (fun t => t.timestamp)
    (match orgId with
      | none => rows
      | some none => rows.filter (fun t => decide (t.orgId = none))
      | some (some o) => rows.filter (fun t => decide (t.orgId = some o)))

/-! ## Aggregation engine (`GET /api/total`, src/unnamed/part_002 lines 56-105) -/

/-- The clock context of one `/api/total` request: `new Date()` in
milliseconds, together with the local-calendar values the route computes from
it — `new Date(y, m, d)` (start of the current day) and `new Date(y, m, 1)`
(start of the current month).  The Gregorian/timezone decomposition itself is
environment behaviour and is kept abstract. -/
structure JsNow where
  nowMs : Int
  dayStartMs : Int
  monthStartMs : Int
deriving DecidableEq, Repr

/-- Eligibility filter of the current route revision (src/unnamed/part_002
lines 62-70): `!t.sessionId || !testSessionIds.has(t.sessionId)`, where
`testSessionIds` collects the ids of sessions with `isTest`.  A `null`
sessionId — and, by JS falsiness, an empty-string one — short-circuits to
eligible. -/
def eligibleTransaction (sessions : List Session) (t : Transaction) : Bool :=
  let testSessionIds := (sessions.filter (fun s => s.isTest)).map (fun s => s.id)
  match t.sessionId with
  | none => true
  | some sid => sid == "" || !(testSessionIds.contains sid)

/-- Eligibility filter of the earlier route revision (src/unnamed/part_001
lines 62-70): `nonTestSessionIds.has(t.sessionId)`; `Set.has(null)` is
`false`.  In that revision's schema (src/unnamed/part_003) `sessionId` is
non-nullable. -/
def eligibleTransactionV1 (sessions : List Session) (t : Transaction) : Bool :=
  let nonTestSessionIds := (sessions.filter (fun s => !s.isTest)).map (fun s => s.id)
  match t.sessionId with
  | none => false
  | some sid => nonTestSessionIds.contains sid

/-- Cutoff instant of the `switch (timeframe)` (src/unnamed/part_002 lines
76-88): start of day for `today`, now minus 7×24h for `week`, start of month
for `month`, and `new Date(0)` (the epoch) for any other value reaching the
switch. -/
def timeframeCutoffMs (s : String) (jn : JsNow) : Int :=
  if s == "today" then jn.dayStartMs
  else if s == "week" then jn.nowMs - 7 * 24 * 60 * 60 * 1000
  else if s == "month" then jn.monthStartMs
  else 0

/-- The timeframe filter (src/unnamed/part_002 lines 72-93): skipped entirely
when `timeframe` is `undefined`, falsy (`""`), or `"all-time"`; otherwise
keeps transactions with `new Date(t.timestamp) >= cutoffDate`. -/
def applyTimeframe (tf : Option String) (jn : JsNow) (txs : List Transaction) :
    List Transaction :=
  match tf with
  | none => txs
  | some s =>
    if s == "" || s == "all-time" then txs
    else txs.filter (fun t => decide (timeframeCutoffMs s jn ≤ t.timestamp))

/-- `filteredTransactions.reduce((sum, t) => sum + parseFloat(t.amount), 0)`
(src/unnamed/part_002 lines 95-99): a left fold of binary64 additions over
the binary64 values of the parsed amounts, starting from `0`. -/
def jsSum (txs : List Transaction) : ℚ :=
  txs.foldl (fun sum t => roundB64 (sum + roundB64 t.amount)) 0

/-- The `GET /api/total` aggregation (src/unnamed/part_002 lines 56-105),
operating on the entity lists the storage backend supplied. -/
def apiTotal (sessions : List Session) (txs : List Transaction) (tf : Option String)
    (jn : JsNow) : ℚ :=
  jsSum (applyTimeframe tf jn (txs.filter (eligibleTransaction sessions)))

/-- Specification-side exact sum: the sum of the decimal `amount` values in
exact rational (fixed-point) arithmetic, for comparison with `jsSum`. -/
def specExactSum (txs : List Transaction) : ℚ := (txs.map (fun t => t.amount)).sum

/-- Specification-side exact total: the aggregation pipeline with the final
sum taken in exact arithmetic, for comparison with `apiTotal`. -/
def specExactTotal (sessions : List Session) (txs : List Transaction)
    (tf : Option String) (jn : JsNow) : ℚ :=
  specExactSum (applyTimeframe tf jn (txs.filter (eligibleTransaction sessions)))

/-! ## Session routes (src/unnamed/part_002 lines 18-53) -/

/-- The `MemStorage` session map, as held by the route layer's storage
singleton. -/
structure RouteState where
  sessions : List (String × Session)
deriving DecidableEq, Repr

/-- `Array.from(this.sessions.values())`. -/
def sessionValues (st : RouteState) : List Session := st.sessions.map Prod.snd

inductive StartResult where
  | conflict
  | started : Session → StartResult
deriving DecidableEq, Repr

inductive StopResult where
  | noActive
  | stopped : Option Session → StopResult
deriving DecidableEq, Repr

/-- `POST /api/session/start` (src/unnamed/part_002 lines 18-34): reject with
HTTP 400 when `storage.getActiveSession()` (no scope arguments) finds any
active session, else `storage.createSession(validatedData)`. -/
def Routes.sessionStart (st : RouteState) (ins : InsertSession) (newId : String)
    (now : Int) : RouteState × StartResult :=
  match MemStorage.getActiveSessionNoFilter (sessionValues st) with
  | some _ => (st, .conflict)
  | none =>
    let r := MemStorage.createSession st.sessions ins newId now
    (⟨r.2⟩, .started r.1)

/-- The update map `{ isActive: false, endTime: new Date() }` sent by
`POST /api/session/stop`. -/
def stopPatch (now : Int) : SessionPatch :=
  { isActive := some false, endTime := some (some now) }

/-- `POST /api/session/stop` (src/unnamed/part_002 lines 37-53): 404 when no
active session, else `storage.updateSession(activeSession.id, { isActive:
false, endTime: new Date() })`. -/
def Routes.sessionStop (st : RouteState) (now : Int) : RouteState × StopResult :=
  match MemStorage.getActiveSessionNoFilter (sessionValues st) with
  | none => (st, .noActive)
  | some a =>
    let r := MemStorage.updateSession st.sessions a.id (stopPatch now)
    (⟨r.2⟩, .stopped r.1)

/-- One route-level session operation, with its nondeterministic inputs
(generated UUID, clock reading) made explicit. -/
inductive RouteOp where
  | start : InsertSession → String → Int → RouteOp
  | stop : Int → RouteOp

def applyRoute (st : RouteState) : RouteOp → RouteState
  | .start ins newId now => (Routes.sessionStart st ins newId now).1
  | .stop now => (Routes.sessionStop st now).1

/-- Sequential execution of route operations. -/
def runRoutes (st : RouteState) (ops : List RouteOp) : RouteState :=
  ops.foldl applyRoute st

def emptyStore : RouteState := ⟨[]⟩

/-- Number of sessions with `isActive = true` in the store. -/
def activeCount (st : RouteState) : Nat :=
  ((sessionValues st).filter (fun s => s.isActive)).length

/-- Number of active sessions whose `(userId, orgId)` fields equal the given
scope. -/
def scopedActiveCount (st : RouteState) (u o : JsOpt String) : Nat :=
  ((sessionValues st).filter
    (fun s => s.isActive && decide (s.userId = u) && decide (s.orgId = o))).length

/-- Map keys are pairwise distinct and each stored session's `id` field equals
its key — true of every state the storage methods build. -/
def StoreWF (st : RouteState) : Prop :=
  (st.sessions.map Prod.fst).Nodup ∧ ∀ p ∈ st.sessions, (Prod.snd p).id = Prod.fst p

/-- A start operation's generated UUID does not collide with an existing key
(fresh randomUUID). -/
def opFresh (st : RouteState) : RouteOp → Prop
  | .start _ newId _ => lookupKey st.sessions newId = none
  | .stop _ => True

/-! ## WorkType store operations -/

/-- A `work_types` row (shared/schema.ts lines 42-53). -/
structure WorkType where
  id : String
  userId : Option String := none
  orgId : Option String := none
  name : String
  icon : Option String := none
  color : Option String := none
  isDefault : Bool := false
  sortOrder : Int := 0
  isActive : Bool := true
  createdAt : Int := 0
deriving DecidableEq, Repr

/-- Modelled from the spec: the WorkType store methods (`getWorkType`,
`getWorkTypesByUser`, `getWorkTypesByOrg`, `deleteWorkType`) are referenced
by the routes (src/unnamed/part_002 lines 152-216), the seeding utility and
server/storage.test.ts, but their implementation is not under src/.  Per the
spec: `getById` does not filter on `isActive`. -/
def getWorkType (wts : List WorkType) (id : String) : Option WorkType :=
  wts.find? (fun w => w.id == id)

/-- Modelled from the spec: `listByScope` for the user dimension — exact
match on `userId`, implicitly filtered to `isActive = true`, ordered by
`sortOrder` ascending with ties in creation order. -/
def getWorkTypesByUser (wts : List WorkType) (u : String) : List WorkType :=
  sortAscBy (fun w => w.sortOrder)
    (wts.filter (fun w => decide (w.userId = some u) && w.isActive))

/-- Modelled from the spec: `listByScope` for the organization dimension. -/
def getWorkTypesByOrg (wts : List WorkType) (o : String) : List WorkType :=
  sortAscBy (fun w => w.sortOrder)
    (wts.filter (fun w => decide (w.orgId = some o) && w.isActive))

/-- Modelled from the spec: `delete(id)` never removes the row; it flips
`isActive = false` on the identified record. -/
def deleteWorkType (wts : List WorkType) (id : String) : List WorkType :=
  wts.map (fun w => if w.id == id then { w with isActive := false } else w)

/-! ## Concrete instances used by the singular parts of the claims -/

/-- An arbitrary request clock: `now`, start of the current day, start of the
current month (values consistent with `monthStart ≤ dayStart ≤ now`). -/
def jn0 : JsNow := { nowMs := 1000000, dayStartMs := 900000, monthStartMs := 500000 }

/-- A $0.10 quick transaction (no session). -/
def tx01 : Transaction := { id := "t1", timestamp := 1, amount := 1 / 10 }

/-- A $0.20 quick transaction. -/
def tx02 : Transaction := { id := "t2", timestamp := 2, amount := 1 / 5 }

/-- A $0.30 quick transaction. -/
def tx03 : Transaction := { id := "t3", timestamp := 3, amount := 3 / 10 }

/-- A test session (isTest = true). -/
def sessTest : Session :=
  { id := "s-test", location := "corner", startTime := 10, isTest := true, isActive := false }

/-- A non-test session in the same scope. -/
def sessReal : Session :=
  { id := "s-real", location := "corner", startTime := 20, isTest := false, isActive := false }

/-- A $5.00 transaction on the test session. -/
def tx5 : Transaction :=
  { id := "t5", sessionId := some "s-test", timestamp := 30, amount := 5 }

/-- A $3.00 transaction on the non-test session. -/
def tx3 : Transaction :=
  { id := "t3b", sessionId := some "s-real", timestamp := 31, amount := 3 }

/-- The store built by the scenario of the repository's own test `should
filter sessions by organization` (server/storage.test.ts lines 240-263),
replayed through the embedded `createSession`: two sessions under org1, one
under org2, and one free-tier session created without an `orgId` key. -/
def orgTestStore : List (String × Session) :=
  let r1 := MemStorage.createSession []
    { userId := .val "user1", orgId := .val "org1", location := "Loc 1", isTest := .val false }
    "sid1" 1
  let r2 := MemStorage.createSession r1.2
    { userId := .val "user1", orgId := .val "org1", location := "Loc 2", isTest := .val false }
    "sid2" 2
  let r3 := MemStorage.createSession r2.2
    { userId := .val "user2", orgId := .val "org2", location := "Loc 3", isTest := .val false }
    "sid3" 3
  let r4 := MemStorage.createSession r3.2
    { userId := .val "userF", location := "Street", isTest := .val false }
    "sid4" 4
  r4.2

/-- The same four sessions as relational rows: a row inserted without an
`orgId` holds SQL `NULL` in that column, so the free-tier session's `orgId`
is `null` rather than `undefined`. -/
def orgTestDbRows : List Session :=
  [ { id := "sid1", userId := .val "user1", orgId := .val "org1", workTypeId := .null,
      location := "Loc 1", startTime := 1 },
    { id := "sid2", userId := .val "user1", orgId := .val "org1", workTypeId := .null,
      location := "Loc 2", startTime := 2 },
    { id := "sid3", userId := .val "user2", orgId := .val "org2", workTypeId := .null,
      location := "Loc 3", startTime := 3 },
    { id := "sid4", userId := .val "userF", orgId := .null, workTypeId := .null,
      location := "Street", startTime := 4 } ]

/-- Two sessions that are both active, the first one started earlier. -/
def sessOld : Session :=
  { id := "sA", location := "old", startTime := 1, isActive := true }

def sessNew : Session :=
  { id := "sB", location := "new", startTime := 2, isActive := true }

/-- A transaction timestamped before the Unix epoch. -/
def txPreEpoch : Transaction := { id := "tp", timestamp := -1, amount := 1 }

/-! ## Evaluation facts for the binary64 model

Each lemma evaluates `roundB64` at one concrete rational; the expected
values are the exact values of the corresponding IEEE-754 doubles. -/

theorem natLog2_eval_small : natLog2 1 = 0 ∧ natLog2 2 = 1 ∧ natLog2 3 = 1 ∧
    natLog2 5 = 2 ∧ natLog2 10 = 3 := by
  refine ⟨?_, ?_, ?_, ?_, ?_⟩ <;> decide

theorem roundB64_three : roundB64 3 = 3 := by
  have h1 : natLog2 3 = 1 := by decide
  have h2 : natLog2 1 = 0 := by decide
  norm_num [roundB64, roundPosB64, qfloorLog2, h1, h2]

theorem roundB64_five : roundB64 5 = 5 := by
  have h1 : natLog2 5 = 2 := by decide
  have h2 : natLog2 1 = 0 := by decide
  norm_num [roundB64, roundPosB64, qfloorLog2, h1, h2]

theorem roundB64_tenth : roundB64 (1 / 10) = 3602879701896397 / 2 ^ 55 := by
  have h1 : natLog2 1 = 0 := by decide
  have h2 : natLog2 10 = 3 := by decide
  norm_num [roundB64, roundPosB64, qfloorLog2, h1, h2]

theorem roundB64_fifth : roundB64 (1 / 5) = 3602879701896397 / 2 ^ 54 := by
  have h1 : natLog2 1 = 0 := by decide
  have h2 : natLog2 5 = 2 := by decide
  norm_num [roundB64, roundPosB64, qfloorLog2, h1, h2]

theorem roundB64_threeTenths : roundB64 (3 / 10) = 5404319552844595 / 2 ^ 54 := by
  have h1 : natLog2 3 = 1 := by decide
  have h2 : natLog2 10 = 3 := by decide
  norm_num [roundB64, roundPosB64, qfloorLog2, h1, h2]

theorem roundB64_dbl_tenth :
    roundB64 (3602879701896397 / 2 ^ 55) = 3602879701896397 / 2 ^ 55 := by
  have h1 : natLog2 3602879701896397 = 51 := by decide
  have h2 : natLog2 36028797018963968 = 55 := by decide
  norm_num [roundB64, roundPosB64, qfloorLog2, h1, h2]

theorem roundB64_dbl_threeTenths :
    roundB64 (5404319552844595 / 2 ^ 54) = 5404319552844595 / 2 ^ 54 := by
  have h1 : natLog2 5404319552844595 = 52 := by decide
  have h2 : natLog2 18014398509481984 = 54 := by decide
  norm_num [roundB64, roundPosB64, qfloorLog2, h1, h2]

theorem roundB64_sum_tenth_fifth :
    roundB64 (3602879701896397 / 2 ^ 55 + 3602879701896397 / 2 ^ 54) =
      1351079888211149 / 2 ^ 52 := by
  have h1 : natLog2 10808639105689191 = 53 := by decide
  have h2 : natLog2 36028797018963968 = 55 := by decide
  norm_num [roundB64, roundPosB64, qfloorLog2, h1, h2]

theorem roundB64_sum_threeTenths_fifth :
    roundB64 (5404319552844595 / 2 ^ 54 + 3602879701896397 / 2 ^ 54) = 1 / 2 := by
  have h1 : natLog2 1 = 0 := by decide
  have h2 : natLog2 2 = 1 := by decide
  norm_num [roundB64, roundPosB64, qfloorLog2, h1, h2]

theorem roundB64_sum_half_tenth :
    roundB64 (1 / 2 + 3602879701896397 / 2 ^ 55) = 5404319552844595 / 2 ^ 53 := by
  have h1 : natLog2 21617278211378381 = 54 := by decide
  have h2 : natLog2 36028797018963968 = 55 := by decide
  norm_num [roundB64, roundPosB64, qfloorLog2, h1, h2]

theorem roundB64_sum_drift_threeTenths :
    roundB64 (1351079888211149 / 2 ^ 52 + 5404319552844595 / 2 ^ 54) =
      5404319552844596 / 2 ^ 53 := by
  have h1 : natLog2 10808639105689191 = 53 := by decide
  have h2 : natLog2 18014398509481984 = 54 := by decide
  norm_num [roundB64, roundPosB64, qfloorLog2, h1, h2]

/-! ## Association-list lemmas -/

theorem lookupKey_mapSet_self {α : Type} (l : List (String × α)) (k : String) (v : α) :
    lookupKey (mapSet k v l) k = some v := by
  induction l with
  | nil => simp [mapSet, lookupKey]
  | cons p rest ih =>
    obtain ⟨k', v'⟩ := p
    by_cases h : k' = k
    · simp [mapSet, h, lookupKey]
    · simp [mapSet, h, lookupKey, ih]

theorem lookupKey_mapSet_ne {α : Type} (l : List (String × α)) (k k₀ : String) (v : α)
    (h : k₀ ≠ k) : lookupKey (mapSet k v l) k₀ = lookupKey l k₀ := by
  have hk' : ¬ (k = k₀) := fun hh => h hh.symm
  induction l with
  | nil =>
    simp only [mapSet, lookupKey]
    rw [if_neg hk']
  | cons p rest ih =>
    obtain ⟨k', v'⟩ := p
    by_cases hk : k' = k
    · subst hk
      simp only [mapSet, if_pos rfl, lookupKey]
      rw [if_neg hk', if_neg hk']
    · simp only [mapSet, if_neg hk, lookupKey, ih]

theorem mem_keys_mapSet {α : Type} (l : List (String × α)) (k a : String) (v : α)
    (h : a ∈ (mapSet k v l).map Prod.fst) : a = k ∨ a ∈ l.map Prod.fst := by
  induction l with
  | nil => simpa [mapSet] using h
  | cons p rest ih =>
    obtain ⟨k', v'⟩ := p
    by_cases hk : k' = k
    · subst hk
      simpa [mapSet] using h
    · simp only [mapSet, if_neg hk, List.map_cons, List.mem_cons] at h
      rcases h with h | h
      · exact Or.inr (by simp [h])
      · rcases ih h with h | h
        · exact Or.inl h
        · exact Or.inr (by simp [h])

theorem keys_nodup_mapSet {α : Type} (l : List (String × α)) (k : String) (v : α)
    (h : (l.map Prod.fst).Nodup) : ((mapSet k v l).map Prod.fst).Nodup := by
  induction l with
  | nil => simp [mapSet]
  | cons p rest ih =>
    obtain ⟨k', v'⟩ := p
    simp only [List.map_cons, List.nodup_cons] at h
    by_cases hk : k' = k
    · subst hk
      simpa [mapSet, List.nodup_cons] using h
    · simp only [mapSet, if_neg hk, List.map_cons]
      refine List.nodup_cons.mpr ⟨?_, ih h.2⟩
      intro hmem
      rcases mem_keys_mapSet rest k k' v hmem with h' | h'
      · exact hk h'
      · exact h.1 h'

theorem mem_values_mapSet {α : Type} (l : List (String × α)) (k : String) (v x : α)
    (h : x ∈ (mapSet k v l).map Prod.snd) : x = v ∨ x ∈ l.map Prod.snd := by
  induction l with
  | nil => simpa [mapSet] using h
  | cons p rest ih =>
    obtain ⟨k', v'⟩ := p
    by_cases hk : k' = k
    · subst hk
      rcases (by simpa [mapSet] using h : x = v ∨ x ∈ rest.map Prod.snd) with h' | h'
      · exact Or.inl h'
      · exact Or.inr (by simp [h'])
    · simp only [mapSet, if_neg hk, List.map_cons, List.mem_cons] at h
      rcases h with h | h
      · exact Or.inr (by simp [h])
      · rcases ih h with h' | h'
        · exact Or.inl h'
        · exact Or.inr (by simp [h'])

theorem mem_mapSet_of_ne_key {α : Type} (l : List (String × α)) (k k₀ : String) (v v₀ : α)
    (h : (k₀, v₀) ∈ l) (hne : k₀ ≠ k) : (k₀, v₀) ∈ mapSet k v l := by
  induction l with
  | nil => simp at h
  | cons p rest ih =>
    obtain ⟨k', v'⟩ := p
    by_cases hk : k' = k
    · subst hk
      simp only [mapSet, if_pos rfl]
      rcases List.mem_cons.mp h with h' | h'
      · exact absurd (congrArg Prod.fst h') hne
      · exact List.mem_cons_of_mem _ h'
    · simp only [mapSet, if_neg hk]
      rcases List.mem_cons.mp h with h' | h'
      · rw [h']
        exact List.mem_cons_self _ _
      · exact List.mem_cons_of_mem _ (ih h')

theorem filter_values_mapSet_le_succ {α : Type} (p : α → Bool) (l : List (String × α))
    (k : String) (v : α) :
    (((mapSet k v l).map Prod.snd).filter p).length ≤
      ((l.map Prod.snd).filter p).length + (if p v then 1 else 0) := by
  induction l with
  | nil =>
    by_cases h : p v <;> simp [mapSet, h]
  | cons q rest ih =>
    obtain ⟨k', v'⟩ := q
    by_cases hk : k' = k
    · subst hk
      by_cases hv : p v <;> by_cases hv' : p v' <;>
        simp [mapSet, List.filter_cons, hv, hv']
    · by_cases hv' : p v' <;> simp [mapSet, if_neg hk, List.filter_cons, hv'] <;> omega

theorem filter_values_mapSet_le {α : Type} (p : α → Bool) (l : List (String × α))
    (k : String) (v : α) (hv : p v = false) :
    (((mapSet k v l).map Prod.snd).filter p).length ≤
      ((l.map Prod.snd).filter p).length := by
  have h := filter_values_mapSet_le_succ p l k v
  rw [hv] at h
  simpa using h

theorem mem_keys_of_mem_values {α : Type} (l : List (String × α)) (f : α → String)
    (hc : ∀ q ∈ l, f (Prod.snd q) = Prod.fst q) (x : α) (h : x ∈ l.map Prod.snd) :
    f x ∈ l.map Prod.fst := by
  induction l with
  | nil => simp at h
  | cons q rest ih =>
    obtain ⟨k', v'⟩ := q
    rcases (by simpa using h : x = v' ∨ x ∈ rest.map Prod.snd) with h' | h'
    · subst h'
      have := hc (k', x) (List.mem_cons_self _ _)
      simp [this]
    · have := ih (fun q hq => hc q (List.mem_cons_of_mem _ hq)) h'
      simp [this]

theorem lookupKey_of_wf {α : Type} (l : List (String × α)) (f : α → String)
    (hnd : (l.map Prod.fst).Nodup) (hc : ∀ q ∈ l, f (Prod.snd q) = Prod.fst q)
    (x : α) (h : x ∈ l.map Prod.snd) : lookupKey l (f x) = some x := by
  induction l with
  | nil => simp at h
  | cons q rest ih =>
    obtain ⟨k', v'⟩ := q
    simp only [List.map_cons, List.nodup_cons] at hnd
    rcases (by simpa using h : x = v' ∨ x ∈ rest.map Prod.snd) with h' | h'
    · subst h'
      have hid := hc (k', x) (List.mem_cons_self _ _)
      simp only [lookupKey]
      rw [if_pos (by simpa using hid.symm)]
    · have hkey : f x ∈ rest.map Prod.fst :=
        mem_keys_of_mem_values rest f (fun q hq => hc q (List.mem_cons_of_mem _ hq)) x h'
      have hne : ¬ (k' = f x) := fun hh => hnd.1 (hh ▸ hkey)
      simp only [lookupKey]
      rw [if_neg hne]
      exact ih hnd.2 (fun q hq => hc q (List.mem_cons_of_mem _ hq)) h'

/-! ## Sorting lemmas -/

theorem insertDescBy_perm {α : Type} (key : α → Int) (a : α) (l : List α) :
    (insertDescBy key a l).Perm (a :: l) := by
  induction l with
  | nil => simp [insertDescBy]
  | cons b bs ih =>
    by_cases h : key b ≤ key a
    · simp [insertDescBy, h]
    · simp only [insertDescBy, if_neg h]
      exact ((ih.cons b).trans (List.Perm.swap a b bs))

theorem sortDescBy_perm {α : Type} (key : α → Int) (l : List α) :
    (sortDescBy key l).Perm l := by
  induction l with
  | nil => simp [sortDescBy]
  | cons a as ih =>
    exact (insertDescBy_perm key a (sortDescBy key as)).trans (ih.cons a)

theorem insertAscBy_perm {α : Type} (key : α → Int) (a : α) (l : List α) :
    (insertAscBy key a l).Perm (a :: l) := by
  induction l with
  | nil => simp [insertAscBy]
  | cons b bs ih =>
    by_cases h : key a ≤ key b
    · simp [insertAscBy, h]
    · simp only [insertAscBy, if_neg h]
      exact ((ih.cons b).trans (List.Perm.swap a b bs))

theorem sortAscBy_perm {α : Type} (key : α → Int) (l : List α) :
    (sortAscBy key l).Perm l := by
  induction l with
  | nil => simp [sortAscBy]
  | cons a as ih =>
    exact (insertAscBy_perm key a (sortAscBy key as)).trans (ih.cons a)

theorem insertDescBy_pairwise {α : Type} (key : α → Int) (a : α) (l : List α)
    (h : l.Pairwise (fun x y => key y ≤ key x)) :
    (insertDescBy key a l).Pairwise (fun x y => key y ≤ key x) := by
  induction l with
  | nil => simp [insertDescBy]
  | cons b bs ih =>
    rcases List.pairwise_cons.mp h with ⟨hb, hbs⟩
    by_cases hle : key b ≤ key a
    · simp only [insertDescBy, if_pos hle]
      refine List.pairwise_cons.mpr ⟨?_, h⟩
      intro y hy
      rcases List.mem_cons.mp hy with h' | h'
      · exact h' ▸ hle
      · exact le_trans (hb y h') hle
    · simp only [insertDescBy, if_neg hle]
      refine List.pairwise_cons.mpr ⟨?_, ih hbs⟩
      intro y hy
      have : y = a ∨ y ∈ bs := by
        have := (insertDescBy_perm key a bs).mem_iff.mp hy
        simpa using this
      rcases this with h' | h'
      · exact h' ▸ le_of_not_le hle
      · exact hb y h'

theorem sortDescBy_pairwise {α : Type} (key : α → Int) (l : List α) :
    (sortDescBy key l).Pairwise (fun x y => key y ≤ key x) := by
  induction l with
  | nil => simp [sortDescBy]
  | cons a as ih => exact insertDescBy_pairwise key a (sortDescBy key as) ih

theorem head?_filter_eq_find? {α : Type} (p : α → Bool) (l : List α) :
    (l.filter p).head? = l.find? p := by
  induction l with
  | nil => simp
  | cons a as ih =>
    by_cases h : p a = true
    · simp [List.filter_cons, h, List.find?_cons_of_pos _ h]
    · rw [List.find?_cons_of_neg _ h]
      simp only [List.filter_cons, if_neg h, ih]

/-! ## More association-list and filtering lemmas -/

theorem mem_mapSet {α : Type} (l : List (String × α)) (k : String) (v : α)
    (q : String × α) (h : q ∈ mapSet k v l) : q = (k, v) ∨ q ∈ l := by
  induction l with
  | nil => simpa [mapSet] using h
  | cons p rest ih =>
    obtain ⟨k', v'⟩ := p
    by_cases hk : k' = k
    · subst hk
      rcases List.mem_cons.mp (by simpa [mapSet] using h) with h' | h'
      · exact Or.inl h'
      · exact Or.inr (List.mem_cons_of_mem _ h')
    · rcases List.mem_cons.mp (by simpa [mapSet, if_neg hk] using h) with h' | h'
      · exact Or.inr (h' ▸ List.mem_cons_self _ _)
      · rcases ih h' with h'' | h''
        · exact Or.inl h''
        · exact Or.inr (List.mem_cons_of_mem _ h'')

theorem mem_of_lookupKey {α : Type} (l : List (String × α)) (k : String) (v : α)
    (h : lookupKey l k = some v) : (k, v) ∈ l := by
  induction l with
  | nil => simp [lookupKey] at h
  | cons p rest ih =>
    obtain ⟨k', v'⟩ := p
    by_cases hk : k' = k
    · subst hk
      have h' : v' = v := by simpa [lookupKey] using h
      rw [← h']
      exact List.mem_cons_self _ _
    · simp only [lookupKey, if_neg hk] at h
      exact List.mem_cons_of_mem _ (ih h)

theorem mapSet_eq_append_of_lookup_none {α : Type} (l : List (String × α)) (k : String)
    (v : α) (h : lookupKey l k = none) : mapSet k v l = l ++ [(k, v)] := by
  induction l with
  | nil => simp [mapSet]
  | cons p rest ih =>
    obtain ⟨k', v'⟩ := p
    simp only [lookupKey] at h
    by_cases hk : k' = k
    · rw [if_pos hk] at h
      simp at h
    · rw [if_neg hk] at h
      simp [mapSet, hk, ih h]

theorem eq_of_mem_keys_nodup {α : Type} (l : List (String × α)) (k : String) (x y : α)
    (hnd : (l.map Prod.fst).Nodup) (hx : (k, x) ∈ l) (hy : (k, y) ∈ l) : x = y := by
  induction l with
  | nil => simp at hx
  | cons p rest ih =>
    obtain ⟨k', v'⟩ := p
    simp only [List.map_cons, List.nodup_cons] at hnd
    rcases List.mem_cons.mp hx with hx' | hx' <;> rcases List.mem_cons.mp hy with hy' | hy'
    · rw [(Prod.mk.injEq _ _ _ _ ▸ hx' : k = k' ∧ x = v').2,
        (Prod.mk.injEq _ _ _ _ ▸ hy' : k = k' ∧ y = v').2]
    · exfalso
      have hk : k = k' := (Prod.mk.injEq _ _ _ _ ▸ hx').1
      exact hnd.1 (hk ▸ List.mem_map_of_mem Prod.fst hy')
    · exfalso
      have hk : k = k' := (Prod.mk.injEq _ _ _ _ ▸ hy').1
      exact hnd.1 (hk ▸ List.mem_map_of_mem Prod.fst hx')
    · exact ih hnd.2 hx' hy'

theorem length_filter_le_of_imp {α : Type} (p q : α → Bool) (l : List α)
    (h : ∀ a, p a = true → q a = true) : (l.filter p).length ≤ (l.filter q).length := by
  induction l with
  | nil => simp
  | cons a as ih =>
    by_cases hp : p a = true
    · have hq := h a hp
      simp only [List.filter_cons, if_pos hp, if_pos hq, List.length_cons]
      omega
    · by_cases hq : q a = true
      · simp only [List.filter_cons, if_neg hp, if_pos hq, List.length_cons]
        omega
      · simp only [List.filter_cons, if_neg hp, if_neg hq]
        exact ih

/-! ## Route-level invariant lemmas -/

theorem mergeSession_stopPatch_isActive (s : Session) (now : Int) :
    (mergeSession s (stopPatch now)).isActive = false := rfl

theorem mergeSession_stopPatch_endTime (s : Session) (now : Int) :
    (mergeSession s (stopPatch now)).endTime = some now := rfl

theorem mergeSession_stopPatch_id (s : Session) (now : Int) :
    (mergeSession s (stopPatch now)).id = s.id := rfl

theorem activeCount_mapSet_le_succ (l : List (String × Session)) (k : String)
    (v : Session) : activeCount ⟨mapSet k v l⟩ ≤ activeCount ⟨l⟩ + 1 := by
  have h := filter_values_mapSet_le_succ (fun s : Session => s.isActive) l k v
  simp only [activeCount, sessionValues]
  by_cases hv : v.isActive <;> simp [hv] at h <;> omega

theorem activeCount_mapSet_le_of_inactive (l : List (String × Session)) (k : String)
    (v : Session) (hv : v.isActive = false) :
    activeCount ⟨mapSet k v l⟩ ≤ activeCount ⟨l⟩ := by
  have h := filter_values_mapSet_le (fun s : Session => s.isActive) l k v hv
  simpa only [activeCount, sessionValues] using h

theorem activeCount_eq_zero_of_find_none (st : RouteState)
    (hfind : MemStorage.getActiveSessionNoFilter (sessionValues st) = none) :
    activeCount st = 0 := by
  have hall := List.find?_eq_none.mp hfind
  have : (sessionValues st).filter (fun s => s.isActive) = [] :=
    List.filter_eq_nil_iff.mpr (by simpa using hall)
  simp [activeCount, this]

theorem activeCount_applyRoute_le (st : RouteState) (op : RouteOp)
    (h : activeCount st ≤ 1) : activeCount (applyRoute st op) ≤ 1 := by
  cases op with
  | start ins newId now =>
    simp only [applyRoute, Routes.sessionStart]
    cases hfind : MemStorage.getActiveSessionNoFilter (sessionValues st) with
    | some a => simpa using h
    | none =>
      have hzero : activeCount st = 0 := activeCount_eq_zero_of_find_none st hfind
      simp only [MemStorage.createSession]
      refine le_trans (activeCount_mapSet_le_succ _ _ _) ?_
      have hst : activeCount ⟨st.sessions⟩ = activeCount st := rfl
      omega
  | stop now =>
    simp only [applyRoute, Routes.sessionStop]
    cases hfind : MemStorage.getActiveSessionNoFilter (sessionValues st) with
    | none => simpa using h
    | some a =>
      simp only [MemStorage.updateSession]
      cases hlook : lookupKey st.sessions a.id with
      | none => simpa using h
      | some s =>
        refine le_trans (activeCount_mapSet_le_of_inactive _ _ _
          (mergeSession_stopPatch_isActive s now)) ?_
        have hst : activeCount ⟨st.sessions⟩ = activeCount st := rfl
        omega

theorem activeCount_runRoutes_le (ops : List RouteOp) (st : RouteState)
    (h : activeCount st ≤ 1) : activeCount (runRoutes st ops) ≤ 1 := by
  induction ops generalizing st with
  | nil => simpa [runRoutes] using h
  | cons op ops ih =>
    simpa [runRoutes] using ih (applyRoute st op) (activeCount_applyRoute_le st op h)

theorem scopedActiveCount_le (st : RouteState) (u o : JsOpt String) :
    scopedActiveCount st u o ≤ activeCount st := by
  apply length_filter_le_of_imp
  intro a ha
  simp only [Bool.and_eq_true] at ha
  exact ha.1.1

theorem storeWF_applyRoute (st : RouteState) (op : RouteOp) (h : StoreWF st) :
    StoreWF (applyRoute st op) := by
  obtain ⟨hnd, hc⟩ := h
  cases op with
  | start ins newId now =>
    simp only [applyRoute, Routes.sessionStart]
    cases hfind : MemStorage.getActiveSessionNoFilter (sessionValues st) with
    | some a => exact ⟨hnd, hc⟩
    | none =>
      simp only [MemStorage.createSession]
      refine ⟨keys_nodup_mapSet _ _ _ hnd, ?_⟩
      intro q hq
      rcases mem_mapSet _ _ _ _ hq with h' | h'
      · rw [h']
      · exact hc q h'
  | stop now =>
    simp only [applyRoute, Routes.sessionStop]
    cases hfind : MemStorage.getActiveSessionNoFilter (sessionValues st) with
    | none => exact ⟨hnd, hc⟩
    | some a =>
      simp only [MemStorage.updateSession]
      cases hlook : lookupKey st.sessions a.id with
      | none => exact ⟨hnd, hc⟩
      | some s =>
        refine ⟨keys_nodup_mapSet _ _ _ hnd, ?_⟩
        intro q hq
        rcases mem_mapSet _ _ _ _ hq with h' | h'
        · rw [h']
          have hsid : s.id = a.id := hc (a.id, s) (mem_of_lookupKey _ _ _ hlook)
          simpa [mergeSession_stopPatch_id] using hsid
        · exact hc q h'

/-! ## Claim theorems -/

/-- Claim C4: under sequential execution of the route-level session-start and
session-stop operations, at most one session with `isActive = true` exists in
any `(userId, orgId)` scope at every observation point; a start issued while
an active session exists is rejected by the caller's check-then-create and
creates no session; stop transitions the active session to `isActive = false`
with `endTime` set; and a closed session stays closed under every further
route operation (with fresh generated ids). -/
theorem c4_single_active_invariant :
    (∀ (ops : List RouteOp) (u o : JsOpt String),
        scopedActiveCount (runRoutes emptyStore ops) u o ≤ 1)
    ∧ (∀ (st : RouteState) (ins : InsertSession) (newId : String) (now : Int),
        (∃ s ∈ sessionValues st, s.isActive = true) →
        Routes.sessionStart st ins newId now = (st, .conflict))
    ∧ (∀ (st : RouteState) (now : Int) (a : Session), StoreWF st →
        MemStorage.getActiveSessionNoFilter (sessionValues st) = some a →
        lookupKey (Routes.sessionStop st now).1.sessions a.id =
            some (mergeSession a (stopPatch now))
          ∧ (mergeSession a (stopPatch now)).isActive = false
          ∧ (mergeSession a (stopPatch now)).endTime = some now)
    ∧ (∀ (st : RouteState) (op : RouteOp), StoreWF st → opFresh st op →
        ∀ (k : String) (s : Session), (k, s) ∈ st.sessions → s.isActive = false →
        (k, s) ∈ (applyRoute st op).sessions) := by
  refine ⟨?_, ?_, ?_, ?_⟩
  · intro ops u o
    refine le_trans (scopedActiveCount_le _ u o) ?_
    refine activeCount_runRoutes_le ops emptyStore ?_
    simp [activeCount, emptyStore, sessionValues]
  · intro st ins newId now hex
    obtain ⟨s, hs, hsa⟩ := hex
    have hsome : (MemStorage.getActiveSessionNoFilter (sessionValues st)).isSome := by
      unfold MemStorage.getActiveSessionNoFilter
      rw [List.find?_isSome]
      exact ⟨s, hs, by simpa using hsa⟩
    obtain ⟨a, ha⟩ := Option.isSome_iff_exists.mp hsome
    simp [Routes.sessionStart, ha]
  · intro st now a hwf hfind
    have hmem : a ∈ sessionValues st := List.mem_of_find?_eq_some hfind
    have hlook : lookupKey st.sessions a.id = some a :=
      lookupKey_of_wf st.sessions Session.id hwf.1 hwf.2 a hmem
    refine ⟨?_, rfl, rfl⟩
    simp only [Routes.sessionStop, hfind, MemStorage.updateSession, hlook]
    exact lookupKey_mapSet_self _ _ _
  · intro st op hwf hfresh k s hmem hinact
    cases op with
    | start ins newId now =>
      simp only [applyRoute, Routes.sessionStart]
      cases hfind : MemStorage.getActiveSessionNoFilter (sessionValues st) with
      | some a => exact hmem
      | none =>
        simp only [MemStorage.createSession]
        rw [mapSet_eq_append_of_lookup_none _ _ _ hfresh]
        exact List.mem_append_left _ hmem
    | stop now =>
      simp only [applyRoute, Routes.sessionStop]
      cases hfind : MemStorage.getActiveSessionNoFilter (sessionValues st) with
      | none => exact hmem
      | some a =>
        simp only [MemStorage.updateSession]
        cases hlook : lookupKey st.sessions a.id with
        | none => exact hmem
        | some s' =>
          have hane : k ≠ a.id := by
            intro hk
            have haa : (a.id, a) ∈ st.sessions := by
              have hmem' : a ∈ sessionValues st := List.mem_of_find?_eq_some hfind
              exact mem_of_lookupKey _ _ _
                (lookupKey_of_wf st.sessions Session.id hwf.1 hwf.2 a hmem')
            have hsa := eq_of_mem_keys_nodup st.sessions a.id s a hwf.1 (hk ▸ hmem) haa
            have hact : a.isActive = true := by simpa using List.find?_some hfind
            rw [hsa, hact] at hinact
            exact Bool.true_eq_false.mp hinact
          exact mem_mapSet_of_ne_key _ _ _ _ _ hmem hane

/-- Witness for C4 at concrete inputs: a start-stop-start run from the empty
store, a start against a store with an active session, and a stop of that
session. -/
theorem c4_single_active_invariant_witness :
    scopedActiveCount (runRoutes emptyStore
        [RouteOp.start { location := "corner" } "id1" 5, RouteOp.stop 9,
          RouteOp.start { location := "park" } "id2" 12]) JsOpt.undef JsOpt.undef ≤ 1
    ∧ Routes.sessionStart ⟨[("sA", sessOld)]⟩ { location := "x" } "id9" 7 =
        (⟨[("sA", sessOld)]⟩, .conflict)
    ∧ lookupKey (Routes.sessionStop ⟨[("sA", sessOld)]⟩ 8).1.sessions "sA" =
        some (mergeSession sessOld (stopPatch 8)) := by
  refine ⟨c4_single_active_invariant.1 _ _ _, ?_, ?_⟩
  · exact c4_single_active_invariant.2.1 _ _ _ _ ⟨sessOld, by decide, by decide⟩
  · have h := c4_single_active_invariant.2.2.1 ⟨[("sA", sessOld)]⟩ 8 sessOld
      ⟨by decide, by decide⟩ (by decide)
    simpa using h.1

/-- Claim C9: the session-start conflict check on Backend A is unscoped — the
route calls `storage.getActiveSession()` with no scope arguments, so a start
request is rejected as a conflict exactly when some session in any scope
(another tenant's or free-tier included) has `isActive = true`. -/
theorem c9_unscoped_conflict_check :
    ∀ (st : RouteState) (ins : InsertSession) (newId : String) (now : Int),
      (Routes.sessionStart st ins newId now).2 = .conflict ↔
        ∃ s ∈ sessionValues st, s.isActive = true := by
  intro st ins newId now
  constructor
  · intro h
    cases hfind : MemStorage.getActiveSessionNoFilter (sessionValues st) with
    | none => simp [Routes.sessionStart, hfind] at h
    | some a =>
      exact ⟨a, List.mem_of_find?_eq_some hfind, by simpa using List.find?_some hfind⟩
  · rintro ⟨s, hs, hsa⟩
    have hsome : (MemStorage.getActiveSessionNoFilter (sessionValues st)).isSome := by
      unfold MemStorage.getActiveSessionNoFilter
      rw [List.find?_isSome]
      exact ⟨s, hs, by simpa using hsa⟩
    obtain ⟨a, ha⟩ := Option.isSome_iff_exists.mp hsome
    simp [Routes.sessionStart, ha]

/-- Claim C10: `updateSession(id, updates)` merges every supplied field into
the stored record — including the server-owned `id`, `startTime`, `endTime`,
`isActive` and `isTest`, none of which is protected from the caller — while
every unsupplied field and every other record remain unchanged; a
nonexistent id returns not-found and leaves the store unchanged. -/
theorem c10_update_session_merge :
    ∀ (sessions : List (String × Session)) (id : String) (p : SessionPatch),
      (∀ s, lookupKey sessions id = some s →
        (MemStorage.updateSession sessions id p).1 = some (mergeSession s p)
        ∧ lookupKey (MemStorage.updateSession sessions id p).2 id =
            some (mergeSession s p)
        ∧ (∀ k, k ≠ id → lookupKey (MemStorage.updateSession sessions id p).2 k =
            lookupKey sessions k)
        ∧ (∀ b, p.isActive = some b → (mergeSession s p).isActive = b)
        ∧ (p.isActive = none → (mergeSession s p).isActive = s.isActive)
        ∧ (∀ v, p.id = some v → (mergeSession s p).id = v)
        ∧ (p.id = none → (mergeSession s p).id = s.id)
        ∧ (∀ v, p.startTime = some v → (mergeSession s p).startTime = v)
        ∧ (p.startTime = none → (mergeSession s p).startTime = s.startTime)
        ∧ (∀ v, p.endTime = some v → (mergeSession s p).endTime = v)
        ∧ (p.endTime = none → (mergeSession s p).endTime = s.endTime)
        ∧ (∀ v, p.isTest = some v → (mergeSession s p).isTest = v)
        ∧ (p.isTest = none → (mergeSession s p).isTest = s.isTest)
        ∧ (p.location = none → (mergeSession s p).location = s.location)
        ∧ (p.userId = none → (mergeSession s p).userId = s.userId)
        ∧ (p.orgId = none → (mergeSession s p).orgId = s.orgId)
        ∧ (p.workTypeId = none → (mergeSession s p).workTypeId = s.workTypeId))
      ∧ (lookupKey sessions id = none →
          MemStorage.updateSession sessions id p = (none, sessions)) := by
  intro sessions id p
  constructor
  · intro s hs
    refine ⟨by simp [MemStorage.updateSession, hs], ?_, ?_, ?_, ?_, ?_, ?_, ?_, ?_,
      ?_, ?_, ?_, ?_, ?_, ?_, ?_, ?_⟩
    · simp only [MemStorage.updateSession, hs]
      exact lookupKey_mapSet_self _ _ _
    · intro k hk
      simp only [MemStorage.updateSession, hs]
      exact lookupKey_mapSet_ne _ _ _ _ hk
    · intro b hb
      simp [mergeSession, hb]
    · intro hb
      simp [mergeSession, hb]
    · intro v hv
      simp [mergeSession, hv]
    · intro hv
      simp [mergeSession, hv]
    · intro v hv
      simp [mergeSession, hv]
    · intro hv
      simp [mergeSession, hv]
    · intro v hv
      simp [mergeSession, hv]
    · intro hv
      simp [mergeSession, hv]
    · intro v hv
      simp [mergeSession, hv]
    · intro hv
      simp [mergeSession, hv]
    · intro hv
      simp [mergeSession, hv]
    · intro hv
      simp [mergeSession, hv]
    · intro hv
      simp [mergeSession, hv]
    · intro hv
      simp [mergeSession, hv]
  · intro h
    simp [MemStorage.updateSession, h]

/-- Witness for C10: updating a stored session's server-owned `isTest` and
`startTime` fields through a patch, and updating a missing id. -/
theorem c10_update_session_merge_witness :
    lookupKey [("sA", sessOld)] "sA" = some sessOld
    ∧ (MemStorage.updateSession [("sA", sessOld)] "sA"
        { isTest := some true, startTime := some 42 }).1 =
      some (mergeSession sessOld { isTest := some true, startTime := some 42 })
    ∧ MemStorage.updateSession [("sA", sessOld)] "missing"
        { isTest := some true, startTime := some 42 } =
      (none, [("sA", sessOld)]) := by
  have h := c10_update_session_merge [("sA", sessOld)] "sA"
    { isTest := some true, startTime := some 42 }
  have h' := c10_update_session_merge [("sA", sessOld)] "missing"
    { isTest := some true, startTime := some 42 }
  exact ⟨by decide, (h.1 sessOld (by decide)).1, h'.2 (by decide)⟩

theorem filter_filter_assoc {α : Type} (p q : α → Bool) (l : List α) :
    (l.filter p).filter q = l.filter (fun a => p a && q a) := by
  induction l with
  | nil => rfl
  | cons a as ih =>
    by_cases hp : p a = true <;> by_cases hq : q a = true <;>
      simp [List.filter_cons, hp, hq, ih]

/-- Claim C6 as stated is false on Backend A: with two active sessions in the
store, `MemStorage.getActiveSession` returns the first active session in
insertion order (the oldest-started), not the most recently started one that
Backend B returns. -/
theorem c6_active_finder_counterexample :
    MemStorage.getActiveSession [sessOld, sessNew] none none = some sessOld
    ∧ DbStorage.getActiveSession [sessOld, sessNew] none none = some sessNew
    ∧ sessNew ∈ [sessOld, sessNew] ∧ sessNew.isActive = true
    ∧ sessOld.startTime < sessNew.startTime := by
  refine ⟨by decide, by decide, by decide, by decide, by decide⟩

/-- Claim C6 amended: on Backend B the finder returns the most recently
started session with `isActive = true` matching the scope filters (or
not-found when none matches); on Backend A it returns the *first* matching
active session in insertion (creation) order — both backends apply the same
match predicate. -/
theorem c6_active_finder_amended :
    (∀ (rows : List Session) (u : Option String) (o : Option (Option String)),
        (DbStorage.getActiveSession rows u o = none ↔
          ∀ s ∈ rows, DbStorage.sessionMatch u o s = false))
    ∧ (∀ (rows : List Session) (u : Option String) (o : Option (Option String))
        (s : Session), DbStorage.getActiveSession rows u o = some s →
        DbStorage.sessionMatch u o s = true ∧ s ∈ rows ∧
          ∀ t ∈ rows, DbStorage.sessionMatch u o t = true → t.startTime ≤ s.startTime)
    ∧ (∀ (sessions : List Session) (u : Option String) (o : Option (Option String)),
        MemStorage.getActiveSession sessions u o =
          sessions.find? (DbStorage.sessionMatch u o)) := by
  refine ⟨?_, ?_, ?_⟩
  · intro rows u o
    constructor
    · intro h
      have hnil : sortDescBy (fun s => s.startTime)
          (rows.filter (DbStorage.sessionMatch u o)) = [] := by
        simpa [DbStorage.getActiveSession, List.head?_eq_none_iff] using h
      have hperm := sortDescBy_perm (fun s => s.startTime)
        (rows.filter (DbStorage.sessionMatch u o))
      rw [hnil] at hperm
      have hfil := hperm.symm.eq_nil
      intro s hs
      have := List.filter_eq_nil_iff.mp hfil s hs
      simpa using this
    · intro h
      have hfil : rows.filter (DbStorage.sessionMatch u o) = [] :=
        List.filter_eq_nil_iff.mpr (fun s hs => by simp [h s hs])
      simp [DbStorage.getActiveSession, hfil, sortDescBy]
  · intro rows u o s h
    unfold DbStorage.getActiveSession at h
    cases hsort : sortDescBy (fun s => s.startTime)
        (rows.filter (DbStorage.sessionMatch u o)) with
    | nil =>
      rw [hsort] at h
      simp at h
    | cons x xs =>
      rw [hsort] at h
      have hx : x = s := by simpa using h
      subst hx
      have hperm := sortDescBy_perm (fun s => s.startTime)
        (rows.filter (DbStorage.sessionMatch u o))
      rw [hsort] at hperm
      have hmem : x ∈ rows.filter (DbStorage.sessionMatch u o) :=
        hperm.mem_iff.mp (List.mem_cons_self _ _)
      have hmem' := List.mem_filter.mp hmem
      refine ⟨hmem'.2, hmem'.1, ?_⟩
      intro t ht hmt
      have htf : t ∈ rows.filter (DbStorage.sessionMatch u o) :=
        List.mem_filter.mpr ⟨ht, hmt⟩
      have htx : t ∈ x :: xs := hperm.mem_iff.mpr htf
      rcases List.mem_cons.mp htx with h' | h'
      · exact h' ▸ le_refl _
      · have hpw := sortDescBy_pairwise (fun s => s.startTime)
          (rows.filter (DbStorage.sessionMatch u o))
        rw [hsort] at hpw
        exact List.rel_of_pairwise_cons hpw h'
  · intro sessions u o
    have hfind := head?_filter_eq_find? (DbStorage.sessionMatch u o) sessions
    rw [← hfind]
    cases u with
    | none =>
      cases o with
      | none =>
        simp only [MemStorage.getActiveSession]
        congr 1
        apply List.filter_congr
        intro s _
        simp [DbStorage.sessionMatch]
      | some o' =>
        simp only [MemStorage.getActiveSession, filter_filter_assoc]
        congr 1
        apply List.filter_congr
        intro s _
        cases o' <;> simp [DbStorage.sessionMatch, jsOfOption]
    | some u' =>
      cases o with
      | none =>
        simp only [MemStorage.getActiveSession, filter_filter_assoc]
        congr 1
        apply List.filter_congr
        intro s _
        simp [DbStorage.sessionMatch]
      | some o' =>
        simp only [MemStorage.getActiveSession, filter_filter_assoc]
        congr 1
        apply List.filter_congr
        intro s _
        cases o' <;> simp [DbStorage.sessionMatch, jsOfOption]

/-- Witness for C6 (amended): the two-active-session store, on which Backend
B indeed returns the most recently started one. -/
theorem c6_active_finder_amended_witness :
    DbStorage.getActiveSession [sessOld, sessNew] none none = some sessNew
    ∧ DbStorage.sessionMatch none none sessNew = true
    ∧ sessNew ∈ [sessOld, sessNew]
    ∧ sessOld.startTime ≤ sessNew.startTime := by
  have h := c6_active_finder_amended.2.1 [sessOld, sessNew] none none sessNew (by decide)
  exact ⟨by decide, h.1, h.2.1, h.2.2 sessOld (by decide) (by decide)⟩

theorem deleteWorkType_inactive_of_id (wts : List WorkType) (id : String) (x : WorkType)
    (hx : x ∈ deleteWorkType wts id) (hid : x.id = id) : x.isActive = false := by
  unfold deleteWorkType at hx
  rcases List.mem_map.mp hx with ⟨w, hw, hmap⟩
  by_cases h : w.id == id
  · rw [if_pos h] at hmap
    rw [← hmap]
  · rw [if_neg h] at hmap
    rw [← hmap] at hid
    exact absurd (by simpa using hid) (by simpa using h)

/-- Claim C8: `deleteWorkType(id)` never removes the record; it sets
`isActive = false`, after which the record no longer appears in the scoped
listings (which filter to `isActive = true`) but `getWorkType(id)` still
returns it with `isActive = false`.  (The WorkType store implementation is
modelled from the spec; only its routes, tests and callers are under src/.) -/
theorem c8_worktype_soft_delete :
    ∀ (wts : List WorkType) (id : String) (wt : WorkType),
      (wts.map (fun w => w.id)).Nodup → wt ∈ wts → wt.id = id →
      getWorkType (deleteWorkType wts id) id = some { wt with isActive := false }
      ∧ (deleteWorkType wts id).length = wts.length
      ∧ (∀ (u : String) (x : WorkType), x ∈ getWorkTypesByUser (deleteWorkType wts id) u →
          x.id ≠ id)
      ∧ (∀ (o : String) (x : WorkType), x ∈ getWorkTypesByOrg (deleteWorkType wts id) o →
          x.id ≠ id) := by
  intro wts id wt hnd hmem hid
  refine ⟨?_, by simp [deleteWorkType], ?_, ?_⟩
  · induction wts with
    | nil => simp at hmem
    | cons w ws ih =>
      simp only [List.map_cons, List.nodup_cons] at hnd
      rcases List.mem_cons.mp hmem with h' | h'
      · subst h'
        have hcond : (wt.id == id) = true := by simpa using hid
        simp only [deleteWorkType, List.map_cons]
        rw [if_pos hcond]
        rw [getWorkType, List.find?_cons_of_pos _ (by simpa using hid)]
      · have hwne : ¬ (w.id == id) = true := by
          have hne : w.id ≠ id := by
            intro hc
            exact hnd.1 (hc ▸ hid ▸ List.mem_map_of_mem (fun w => w.id) h')
          simpa using hne
        have hrec := ih hnd.2 h'
        simp only [deleteWorkType, List.map_cons] at hrec ⊢
        rw [if_neg hwne]
        rw [getWorkType, List.find?_cons_of_neg _ (by simpa using hwne)]
        exact hrec
  · intro u x hx
    have hperm := sortAscBy_perm (fun w => w.sortOrder)
      ((deleteWorkType wts id).filter (fun w => decide (w.userId = some u) && w.isActive))
    have hm := List.mem_filter.mp (hperm.mem_iff.mp hx)
    have h2 : x.userId = some u ∧ x.isActive = true := by simpa using hm.2
    intro hxid
    have hfalse := deleteWorkType_inactive_of_id wts id x hm.1 hxid
    rw [hfalse] at h2
    exact Bool.false_ne_true h2.2
  · intro o x hx
    have hperm := sortAscBy_perm (fun w => w.sortOrder)
      ((deleteWorkType wts id).filter (fun w => decide (w.orgId = some o) && w.isActive))
    have hm := List.mem_filter.mp (hperm.mem_iff.mp hx)
    have h2 : x.orgId = some o ∧ x.isActive = true := by simpa using hm.2
    intro hxid
    have hfalse := deleteWorkType_inactive_of_id wts id x hm.1 hxid
    rw [hfalse] at h2
    exact Bool.false_ne_true h2.2

/-- Witness for C8: soft-deleting a concrete user-scoped work type. -/
theorem c8_worktype_soft_delete_witness :
    getWorkType (deleteWorkType
        [{ id := "w1", userId := some "u1", name := "Panhandling" }] "w1") "w1" =
      some { id := "w1", userId := some "u1", name := "Panhandling", isActive := false }
    ∧ (deleteWorkType [{ id := "w1", userId := some "u1", name := "Panhandling" }] "w1").length = 1 := by
  have h := c8_worktype_soft_delete
    [{ id := "w1", userId := some "u1", name := "Panhandling" }] "w1"
    { id := "w1", userId := some "u1", name := "Panhandling" }
    (by decide) (by decide) (by decide)
  exact ⟨h.1, h.2.1⟩

/-- Claim C7 fails for unrecognized timeframe values: the `switch` default
applies a cutoff at the Unix epoch (`new Date(0)`), not "no cutoff", so a
transaction timestamped before 1970 is dropped under an unknown timeframe
value but kept under `all-time` (and under a missing timeframe). -/
theorem c7_timeframe_counterexample :
    applyTimeframe (some "yesterday") jn0 [txPreEpoch] = []
    ∧ applyTimeframe (some "all-time") jn0 [txPreEpoch] = [txPreEpoch]
    ∧ applyTimeframe none jn0 [txPreEpoch] = [txPreEpoch] := by
  refine ⟨rfl, rfl, rfl⟩

/-- Claim C7 amended: a transaction survives the timeframe filter iff its
timestamp is at or after the cutoff — start of the current day for `today`,
now minus 7×24h for `week`, start of the current month for `month`; a
missing, empty or `all-time` timeframe applies no cutoff; and any *other*
timeframe value applies a cutoff at the Unix epoch (timestamp ≥ 0), which
coincides with no cutoff only for non-negative timestamps. -/
theorem c7_timeframe_amended :
    ∀ (jn : JsNow) (txs : List Transaction) (t : Transaction),
      (t ∈ applyTimeframe none jn txs ↔ t ∈ txs)
      ∧ (t ∈ applyTimeframe (some "all-time") jn txs ↔ t ∈ txs)
      ∧ (t ∈ applyTimeframe (some "") jn txs ↔ t ∈ txs)
      ∧ (t ∈ applyTimeframe (some "today") jn txs ↔
          t ∈ txs ∧ jn.dayStartMs ≤ t.timestamp)
      ∧ (t ∈ applyTimeframe (some "week") jn txs ↔
          t ∈ txs ∧ jn.nowMs - 7 * 24 * 60 * 60 * 1000 ≤ t.timestamp)
      ∧ (t ∈ applyTimeframe (some "month") jn txs ↔
          t ∈ txs ∧ jn.monthStartMs ≤ t.timestamp)
      ∧ (∀ s : String, s ≠ "" → s ≠ "all-time" → s ≠ "today" → s ≠ "week" →
          s ≠ "month" →
          (t ∈ applyTimeframe (some s) jn txs ↔ t ∈ txs ∧ 0 ≤ t.timestamp)) := by
  intro jn txs t
  refine ⟨Iff.rfl, ?_, ?_, ?_, ?_, ?_, ?_⟩
  · simp [applyTimeframe]
  · simp [applyTimeframe]
  · simp [applyTimeframe, timeframeCutoffMs, List.mem_filter]
  · simp [applyTimeframe, timeframeCutoffMs, List.mem_filter]
  · simp [applyTimeframe, timeframeCutoffMs, List.mem_filter]
  · intro s h1 h2 h3 h4 h5
    have e1 : (s == "") = false := by simpa using h1
    have e2 : (s == "all-time") = false := by simpa using h2
    have e3 : (s == "today") = false := by simpa using h3
    have e4 : (s == "week") = false := by simpa using h4
    have e5 : (s == "month") = false := by simpa using h5
    simp [applyTimeframe, timeframeCutoffMs, e1, e2, e3, e4, e5, List.mem_filter]

/-- Witness for C7 (amended): the pre-epoch transaction under a missing
timeframe and under the unrecognized value `yesterday`. -/
theorem c7_timeframe_amended_witness :
    txPreEpoch ∈ applyTimeframe none jn0 [txPreEpoch]
    ∧ (txPreEpoch ∈ applyTimeframe (some "yesterday") jn0 [txPreEpoch] ↔
        txPreEpoch ∈ [txPreEpoch] ∧ (0 : Int) ≤ txPreEpoch.timestamp) := by
  have h := c7_timeframe_amended jn0 [txPreEpoch] txPreEpoch
  exact ⟨h.1.mpr (List.mem_cons_self _ _),
    h.2.2.2.2.2.2 "yesterday" (by decide) (by decide) (by decide) (by decide) (by decide)⟩

/-- Claim C3, evaluated at the repository's own test scenario
(server/storage.test.ts lines 240-263): `getAllSessions(null)` on Backend A
misses the free-tier session that was created without an `orgId` key — the
session's `orgId` is `undefined` and `s.orgId === null` is false — returning
0 sessions where the test asserts 1; Backend B stores that row with SQL
`NULL` and returns it.  The concrete-id filters themselves match exactly
(tenant isolation holds for concrete organization ids). -/
theorem c3_null_scope_divergence :
    (MemStorage.getAllSessions (orgTestStore.map Prod.snd) (some none)).length = 0
    ∧ (MemStorage.getAllSessions (orgTestStore.map Prod.snd) none).length = 4
    ∧ (MemStorage.getAllSessions (orgTestStore.map Prod.snd) (some (some "org1"))).length = 2
    ∧ (MemStorage.getAllSessions (orgTestStore.map Prod.snd) (some (some "org2"))).length = 1
    ∧ (∃ s ∈ orgTestStore.map Prod.snd,
        s.orgId = JsOpt.undef ∧ s.userId = JsOpt.val "userF")
    ∧ (MemStorage.getAllSessions (orgTestStore.map Prod.snd)
        (some (some "org1"))).all (fun s => decide (s.orgId = JsOpt.val "org1")) = true
    ∧ (DbStorage.getAllSessions orgTestDbRows (some none)).length = 1
    ∧ (DbStorage.getAllSessions orgTestDbRows (some none)).all
        (fun s => decide (s.orgId = JsOpt.null)) = true := by
  refine ⟨by decide, by decide, by decide, by decide, by decide, by decide, by decide,
    by decide⟩

/-- Claim C1: a transaction is eligible for aggregation iff its `sessionId`
is null (quick transaction) or resolves to a non-test session — under the
schema's referential integrity (session ids are unique, a non-null
`sessionId` resolves to a stored session, and ids are non-empty UUID
strings); the earlier route revision's filter agrees on its (non-nullable)
sessionId domain; and on the spec's concrete store — one $5.00 transaction
on a test session and one $3.00 transaction on a non-test session —
`total(scope, "all-time")` is $3.00. -/
theorem c1_eligibility_total :
    (∀ (sessions : List Session) (t : Transaction),
        (sessions.map (fun s => s.id)).Nodup →
        (∀ sid, t.sessionId = some sid → sid ≠ "" ∧ ∃ s ∈ sessions, s.id = sid) →
        (eligibleTransaction sessions t = true ↔
          t.sessionId = none ∨
            ∃ s ∈ sessions, t.sessionId = some s.id ∧ s.isTest = false))
    ∧ (∀ (sessions : List Session) (t : Transaction) (sid : String),
        t.sessionId = some sid →
        (eligibleTransactionV1 sessions t = true ↔
          ∃ s ∈ sessions, s.id = sid ∧ s.isTest = false))
    ∧ apiTotal [sessTest, sessReal] [tx5, tx3] (some "all-time") jn0 = 3 := by
  refine ⟨?_, ?_, ?_⟩
  · intro sessions t hnd hri
    cases hsid : t.sessionId with
    | none => simp [eligibleTransaction, hsid]
    | some sid =>
      obtain ⟨hne, s0, hs0, hid0⟩ := hri sid hsid
      have hbe : (sid == "") = false := by simpa using hne
      simp only [eligibleTransaction, hsid, hbe, Bool.false_or, Bool.not_eq_true',
        Option.some.injEq]
      constructor
      · intro hel
        have hnotmem : sid ∉ (sessions.filter (fun s => s.isTest)).map (fun s => s.id) := by
          intro hmem
          have : ((sessions.filter (fun s => s.isTest)).map (fun s => s.id)).contains sid
              = true := by simpa using hmem
          rw [this] at hel
          exact Bool.true_eq_false.mp hel
        refine Or.inr ⟨s0, hs0, hid0.symm, ?_⟩
        by_contra htest
        have : sid ∈ (sessions.filter (fun s => s.isTest)).map (fun s => s.id) := by
          refine List.mem_map.mpr ⟨s0, List.mem_filter.mpr ⟨hs0, ?_⟩, hid0⟩
          simpa using htest
        exact hnotmem this
      · rintro (h | ⟨s, hs, hsid', hnt⟩)
        · exact absurd h (by simp)
        · have hnotmem : sid ∉ (sessions.filter (fun s => s.isTest)).map (fun s => s.id) := by
            intro hmem
            rcases List.mem_map.mp hmem with ⟨s', hs', hid'⟩
            have hs'mem := List.mem_filter.mp hs'
            have : s' = s := by
              apply List.inj_on_of_nodup_map hnd hs'mem.1 hs
              rw [hid', ← hsid']
            rw [this] at hs'mem
            rw [hnt] at hs'mem
            exact Bool.false_ne_true hs'mem.2
          simpa using hnotmem
  · intro sessions t sid hsid
    simp only [eligibleTransactionV1, hsid]
    constructor
    · intro hel
      have hmem : sid ∈ (sessions.filter (fun s => !s.isTest)).map (fun s => s.id) := by
        simpa using hel
      rcases List.mem_map.mp hmem with ⟨s, hs, hid⟩
      have hsf := List.mem_filter.mp hs
      exact ⟨s, hsf.1, hid, by simpa using hsf.2⟩
    · rintro ⟨s, hs, hid, hnt⟩
      have : sid ∈ (sessions.filter (fun s => !s.isTest)).map (fun s => s.id) :=
        List.mem_map.mpr ⟨s, List.mem_filter.mpr ⟨hs, by simpa using hnt⟩, hid⟩
      simpa using this
  · have h3 := roundB64_three
    simp [apiTotal, applyTimeframe, eligibleTransaction, jsSum, tx5, tx3, sessTest,
      sessReal, List.filter_cons, h3]

/-- Witness for C1: the eligibility characterizations applied to the concrete
$3.00 transaction on the non-test session and the $5.00 transaction on the
test session. -/
theorem c1_eligibility_total_witness :
    (eligibleTransaction [sessTest, sessReal] tx3 = true ↔
      tx3.sessionId = none ∨
        ∃ s ∈ [sessTest, sessReal], tx3.sessionId = some s.id ∧ s.isTest = false)
    ∧ (eligibleTransactionV1 [sessTest, sessReal] tx5 = true ↔
        ∃ s ∈ [sessTest, sessReal], s.id = "s-test" ∧ s.isTest = false) := by
  refine ⟨c1_eligibility_total.1 [sessTest, sessReal] tx3 (by decide) ?_,
    c1_eligibility_total.2.1 [sessTest, sessReal] tx5 "s-test" (by decide)⟩
  intro sid h
  have hs : "s-real" = sid := by simpa [tx3] using h
  subst hs
  exact ⟨by decide, sessReal, by decide, by decide⟩

/-- Claim C2 is false: the aggregation sums with `parseFloat` and IEEE-754
double addition, not exact fixed-point arithmetic.  On two quick
transactions of $0.10 and $0.20 the route returns the double
0.30000000000000004 (= 1351079888211149/2^52), not the exact sum $0.30. -/
theorem c2_exact_sum_counterexample :
    apiTotal [] [tx01, tx02] none jn0 ≠ specExactSum [tx01, tx02] := by
  have e2 := roundB64_tenth
  have e3 := roundB64_fifth
  have e5 := roundB64_dbl_tenth
  have e7 := roundB64_sum_tenth_fifth
  simp only [apiTotal, applyTimeframe, eligibleTransaction, jsSum, specExactSum,
    tx01, tx02, List.filter_cons, List.filter_nil, eq_self_iff_true, if_true,
    List.foldl_cons, List.foldl_nil, List.map_cons, List.map_nil, List.sum_cons,
    List.sum_nil, zero_add, e2, e5, e3, e7]
  norm_num

/-- Claim C2 amended: the aggregation returns the IEEE-754 binary64 left fold
of the parsed amounts starting from 0 — zero for the empty set — which
agrees with the exact 2-decimal sum only up to binary64 rounding: $0.10 +
$0.20 evaluates to 1351079888211149/2^52 (0.30000000000000004), while the
exact sum is 3/10. -/
theorem c2_float_sum_amended :
    (∀ (sessions : List Session) (tf : Option String) (jn : JsNow),
        apiTotal sessions [] tf jn = 0)
    ∧ apiTotal [] [tx01, tx02] none jn0 = 1351079888211149 / 2 ^ 52
    ∧ specExactSum [tx01, tx02] = 3 / 10
    ∧ (1351079888211149 / 2 ^ 52 : ℚ) ≠ 3 / 10 := by
  refine ⟨?_, ?_, ?_, by norm_num⟩
  · intro sessions tf jn
    cases tf with
    | none => rfl
    | some s =>
      simp only [apiTotal, List.filter_nil, applyTimeframe]
      split
      · rfl
      · rfl
  · have e2 := roundB64_tenth
    have e3 := roundB64_fifth
    have e5 := roundB64_dbl_tenth
    have e7 := roundB64_sum_tenth_fifth
    simp only [apiTotal, applyTimeframe, eligibleTransaction, jsSum, tx01, tx02,
      List.filter_cons, List.filter_nil, eq_self_iff_true, if_true, List.foldl_cons,
      List.foldl_nil, zero_add, e2, e5, e3, e7]
  · simp only [specExactSum, tx01, tx02, List.map_cons, List.map_nil, List.sum_cons,
      List.sum_nil]
    norm_num

theorem eligibleTransaction_perm_congr (sessA sessB : List Session)
    (h : sessA.Perm sessB) : eligibleTransaction sessA = eligibleTransaction sessB := by
  funext t
  unfold eligibleTransaction
  cases hsid : t.sessionId with
  | none => rfl
  | some sid =>
    have hiff : sid ∈ (sessA.filter (fun s => s.isTest)).map (fun s => s.id) ↔
        sid ∈ (sessB.filter (fun s => s.isTest)).map (fun s => s.id) :=
      ((h.filter _).map _).mem_iff
    have hA : (((sessA.filter (fun s => s.isTest)).map (fun s => s.id)).contains sid)
        = true ↔ sid ∈ (sessA.filter (fun s => s.isTest)).map (fun s => s.id) := by simp
    have hB : (((sessB.filter (fun s => s.isTest)).map (fun s => s.id)).contains sid)
        = true ↔ sid ∈ (sessB.filter (fun s => s.isTest)).map (fun s => s.id) := by simp
    have hmc : (((sessA.filter (fun s => s.isTest)).map (fun s => s.id)).contains sid) =
        (((sessB.filter (fun s => s.isTest)).map (fun s => s.id)).contains sid) := by
      rw [Bool.eq_iff_iff, hA, hB]
      exact hiff
    show (sid == "" ||
        !(((sessA.filter (fun s => s.isTest)).map (fun s => s.id)).contains sid)) =
      (sid == "" ||
        !(((sessB.filter (fun s => s.isTest)).map (fun s => s.id)).contains sid))
    rw [hmc]

/-- Claim C5 is false as stated: for the same store contents — three quick
transactions of $0.10, $0.20, $0.30 — Backend A supplies them in insertion
order while Backend B supplies them ordered by `timestamp DESC`, and the
binary64 left fold gives 0.6000000000000001 on one order and 0.6 on the
other: the totals are not byte-identical. -/
theorem c5_backend_total_counterexample :
    MemStorage.getAllTransactions [tx01, tx02, tx03] none = [tx01, tx02, tx03]
    ∧ DbStorage.getAllTransactions [tx01, tx02, tx03] none = [tx03, tx02, tx01]
    ∧ apiTotal [] (MemStorage.getAllTransactions [tx01, tx02, tx03] none) none jn0 =
        5404319552844596 / 2 ^ 53
    ∧ apiTotal [] (DbStorage.getAllTransactions [tx01, tx02, tx03] none) none jn0 =
        5404319552844595 / 2 ^ 53
    ∧ apiTotal [] (MemStorage.getAllTransactions [tx01, tx02, tx03] none) none jn0 ≠
        apiTotal [] (DbStorage.getAllTransactions [tx01, tx02, tx03] none) none jn0 := by
  have hmem : MemStorage.getAllTransactions [tx01, tx02, tx03] none =
      [tx01, tx02, tx03] := rfl
  have hdb : DbStorage.getAllTransactions [tx01, tx02, tx03] none =
      [tx03, tx02, tx01] := rfl
  have e2 := roundB64_tenth
  have e3 := roundB64_fifth
  have e4 := roundB64_threeTenths
  have e5 := roundB64_dbl_tenth
  have e6 := roundB64_dbl_threeTenths
  have e7 := roundB64_sum_tenth_fifth
  have e8 := roundB64_sum_threeTenths_fifth
  have e9 := roundB64_sum_half_tenth
  have e10 := roundB64_sum_drift_threeTenths
  have hA : apiTotal [] [tx01, tx02, tx03] none jn0 = 5404319552844596 / 2 ^ 53 := by
    simp only [apiTotal, applyTimeframe, eligibleTransaction, jsSum, tx01, tx02, tx03,
      List.filter_cons, List.filter_nil, eq_self_iff_true, if_true, List.foldl_cons,
      List.foldl_nil, zero_add, e2, e5, e3, e7, e4, e10]
  have hB : apiTotal [] [tx03, tx02, tx01] none jn0 = 5404319552844595 / 2 ^ 53 := by
    simp only [apiTotal, applyTimeframe, eligibleTransaction, jsSum, tx01, tx02, tx03,
      List.filter_cons, List.filter_nil, eq_self_iff_true, if_true, List.foldl_cons,
      List.foldl_nil, zero_add, e4, e6, e3, e8, e2, e9]
  refine ⟨hmem, hdb, by rw [hmem, hA], by rw [hdb, hB], ?_⟩
  rw [hmem, hdb, hA, hB]
  norm_num

/-- Claim C5 amended: both backends feed the aggregation the same multiset of
transactions, so the surviving (eligible, timeframe-filtered) sets are
permutations of each other and the *exact* decimal totals coincide; but the
floating-point fold visits them in backend-specific order, so the binary64
totals may differ in the final bits. -/
theorem c5_backend_total_amended :
    ∀ (sessA sessB : List Session) (txsA txsB : List Transaction)
      (tf : Option String) (jn : JsNow),
      sessA.Perm sessB → txsA.Perm txsB →
      (applyTimeframe tf jn (txsA.filter (eligibleTransaction sessA))).Perm
        (applyTimeframe tf jn (txsB.filter (eligibleTransaction sessB)))
      ∧ specExactTotal sessA txsA tf jn = specExactTotal sessB txsB tf jn := by
  intro sessA sessB txsA txsB tf jn hs ht
  have hpred := eligibleTransaction_perm_congr sessA sessB hs
  have hfil : (txsA.filter (eligibleTransaction sessA)).Perm
      (txsB.filter (eligibleTransaction sessB)) := by
    rw [hpred]
    exact ht.filter _
  have happ : (applyTimeframe tf jn (txsA.filter (eligibleTransaction sessA))).Perm
      (applyTimeframe tf jn (txsB.filter (eligibleTransaction sessB))) := by
    cases tf with
    | none => exact hfil
    | some s =>
      simp only [applyTimeframe]
      split
      · exact hfil
      · exact hfil.filter _
  refine ⟨happ, ?_⟩
  unfold specExactTotal specExactSum
  exact (happ.map _).sum_eq

/-- Witness for C5 (amended): the same two-transaction contents handed over
in the two backends' orders. -/
theorem c5_backend_total_amended_witness :
    (applyTimeframe none jn0 ([tx01, tx02].filter (eligibleTransaction []))).Perm
      (applyTimeframe none jn0 ([tx02, tx01].filter (eligibleTransaction [])))
    ∧ specExactTotal [] [tx01, tx02] none jn0 =
        specExactTotal [] [tx02, tx01] none jn0 := by
  exact c5_backend_total_amended [] [] [tx01, tx02] [tx02, tx01] none jn0
    (List.Perm.refl _) (List.Perm.swap tx02 tx01 [])
